import Mathlib

/-!
Verification of the VLM-Based-Surveillance-System pipeline.

Shallow embedding of the frame-triage and analysis pipeline:
`config.py`, `anomaly_detector.py` (keyword gate and two-stage decision),
and `surveillance.py` (motion gate, sampling/submission step, bounded
analysis queue, lifecycle start).

Conventions:
* Python strings are `String`; the substring operator `in` is `containsSub`
  over the underlying character lists; `str.lower()` is `lowerChars`.
* The wall clock (`time.time()`, a float in Python) is modelled as an
  integer clock: only comparisons and subtraction of timestamps enter the
  submission logic, which an ordered integer clock preserves.
* Classifier calls are oracles: `Except String A` is a call that either
  returns `A` or raises with a message, mirroring the `try/except` blocks.
-/

/-- The Python substring test `needle in haystack`, over explicit character
lists: true iff `needle` occurs contiguously inside `haystack`. -/
def containsSub (needle : List Char) : List Char → Bool
  | [] => needle.isPrefixOf []
  | c :: rest => needle.isPrefixOf (c :: rest) || containsSub needle rest

/-- Python `str.lower()` restricted to the ASCII texts this pipeline
compares (keyword lists and descriptions). -/
def lowerChars (s : String) : List Char :=
  s.data.map Char.toLower

/-! Embedding of `config.py`. -/

/-- Seconds between analyses (`FRAME_INTERVAL`, default 2), on the integer
clock. -/
def FRAME_INTERVAL : Int := 2

/-- Alert keywords that indicate an anomaly was found (`ALERT_KEYWORDS`). -/
def ALERT_KEYWORDS : List String :=
  ["intruder", "fire", "smoke", "fallen", "violence", "theft", "suspicious",
   "danger", "emergency", "unusual", "abnormal", "alert", "warning", "person",
   "breaking", "weapon", "fight", "accident"]

/-! Embedding of `anomaly_detector.py`. -/

/-- Lower-cased alert keywords, as built in `AnomalyDetector.__init__`. -/
def alert_keywords : List (List Char) :=
  ALERT_KEYWORDS.map lowerChars

/-- Human-related words mapped to "person" in `_check_for_anomaly`. -/
def human_words : List String :=
  ["man", "woman", "person", "people", "human", "individual", "male",
   "female", "guy", "lady", "gentleman", "boy", "girl", "child", "adult"]

/-- Negation phrases that force the keyword gate false in
`_check_for_anomaly`. -/
def negation_phrases : List String :=
  ["no anomaly", "nothing unusual", "appears normal", "everything looks normal"]

/-- Human-indicator expansion step of `AnomalyDetector._check_for_anomaly`:
when any human-related word occurs as a substring of the lower-cased text
and "person" does not already occur, the token " person" is appended
(only for keyword matching). -/
def expanded_desc (desc_lower : List Char) : List Char :=
  if human_words.any (fun w => containsSub w.data desc_lower)
      && !(containsSub ("person").data desc_lower) then
    desc_lower ++ (" person").data
  else desc_lower

/-- Embedding of `AnomalyDetector._check_for_anomaly`: lower-case the
description, apply the human-indicator expansion, force false on a
negation phrase, otherwise report whether any alert keyword occurs as a
substring. -/
def check_for_anomaly (description : String) : Bool :=
  let desc_lower := expanded_desc (lowerChars description)
  if containsSub ("no anomaly").data desc_lower
      || containsSub ("nothing unusual").data desc_lower then
    false
  else if containsSub ("appears normal").data desc_lower
      || containsSub ("everything looks normal").data desc_lower then
    false
  else
    alert_keywords.any (fun kw => containsSub kw desc_lower)

/-- Normalized bounding box returned by the person-localization call. -/
structure BoundingBox where
  x_min : Int
  y_min : Int
  x_max : Int
  y_max : Int
deriving DecidableEq, Repr

/-- Result record built by `AnomalyDetector.analyze` (the `timestamp`
field, wall-clock metadata, is omitted). -/
structure AnalysisResult where
  description : String
  is_anomaly : Bool
  confidence : String
  persons_detected : Bool
  detected_objects : List BoundingBox
deriving DecidableEq, Repr

/-- Suffix appended to the description when persons are detected. -/
def person_suffix (n : Nat) : String :=
  " [PERSON DETECTED: " ++ toString n ++ " person(s) found]"

/-- Result returned by the `except` branch of `AnomalyDetector.analyze`. -/
def error_result (e : String) : AnalysisResult :=
  { description := "Error: " ++ e
    is_anomaly := false
    confidence := "error"
    persons_detected := false
    detected_objects := [] }

/-- Embedding of `AnomalyDetector.analyze`. The two classifier calls are
oracles: `describe_res` is the outcome of `client.analyze_frame` and
`detect_res` the outcome of `client.detect_objects` (its `objects` list,
defaulting to empty). A raised exception in either call lands in the
`except` branch, producing `error_result`; `analyze` itself is total. -/
def analyze (describe_res : Except String String)
    (detect_res : Except String (List BoundingBox)) : AnalysisResult :=
  match describe_res with
  | .error e => error_result e
  | .ok description =>
    let keywords_found := check_for_anomaly description
    if keywords_found then
      match detect_res with
      | .error e => error_result e
      | .ok detected_objects =>
        let person_detected := decide (detected_objects.length > 0)
        let description :=
          if person_detected then
            description ++ person_suffix detected_objects.length
          else description
        let is_anomaly := keywords_found && person_detected
        { description := description
          is_anomaly := is_anomaly
          confidence := if is_anomaly then "high" else "normal"
          persons_detected := person_detected
          detected_objects := detected_objects }
    else
      { description := description
        is_anomaly := false
        confidence := if false then "high" else "normal"
        persons_detected := false
        detected_objects := [] }

/-- Whether `AnomalyDetector.analyze` reaches the `client.detect_objects`
call: only when the description call succeeded and the keyword gate
passed. -/
def analyze_calls_detect (describe_res : Except String String) : Bool :=
  match describe_res with
  | .error _ => false
  | .ok description => check_for_anomaly description

/-! Embedding of `surveillance.py`. -/

/-- Non-blocking enqueue of the Python `queue.Queue(maxsize)`: `put_nowait`
succeeds (appending at the tail) iff the queue holds fewer than `maxsize`
items; on a full queue it fails and the contents are unchanged. Returns
(succeeded, new queue). -/
def put_nowait {A : Type} (maxsize : Nat) (q : List A) (x : A) : Bool × List A :=
  if q.length < maxsize then (true, q ++ [x]) else (false, q)

/-- Queue capacity chosen in `SurveillanceSystem.__init__`
(`Queue(maxsize=10)`). -/
def QUEUE_MAXSIZE : Nat := 10

/-- State touched by the submission decision inside
`SurveillanceSystem._run_loop`: the last accepted analysis time and the
analysis queue (entries are their enqueue timestamps; frames are opaque). -/
structure LoopState where
  last_analysis_time : Int
  queue : List Int
  frame_count : Nat
deriving DecidableEq, Repr

/-- Embedding of the submission block of `SurveillanceSystem._run_loop`:
when motion is present and `now - last_analysis_time ≥ interval`, the
frame is submitted with `put_nowait`; only if the enqueue succeeds are
`last_analysis_time` and `frame_count` updated (a raised `queue.Full`
skips both assignments). The returned Bool is the submission decision
(whether the motion-and-interval condition held). -/
def run_loop_submit (interval : Int) (maxsize : Nat) (st : LoopState)
    (has_motion : Bool) (now : Int) : Bool × LoopState :=
  if has_motion && decide (now - st.last_analysis_time ≥ interval) then
    match put_nowait maxsize st.queue now with
    | (true, q) =>
      (true, { last_analysis_time := now, queue := q,
               frame_count := st.frame_count + 1 })
    | (false, _) => (true, st)
  else
    (false, st)

/-- Mutable state of the motion gate inside `SurveillanceSystem`: the
stored previous grayscale frame and the two thresholds set in
`__init__`. A grayscale frame is a matrix of pixel intensities. -/
structure MotionState where
  previous_frame : Option (List (List Nat))
  motion_threshold : Nat
  min_motion_area : Nat
deriving DecidableEq, Repr

/-- Motion-gate state after `SurveillanceSystem.__init__`:
no previous frame, pixel threshold 25, minimum motion area 500. -/
def initial_motion_state : MotionState :=
  { previous_frame := none, motion_threshold := 25, min_motion_area := 500 }

/-- Pointwise absolute difference of two grayscale frames
(`cv2.absdiff`). -/
def absdiff (a b : List (List Nat)) : List (List Nat) :=
  List.zipWith (List.zipWith (fun x y => max x y - min x y)) a b

/-- Modelled from the spec: the `cv2.threshold` / `cv2.findContours` /
`cv2.contourArea` steps of `_detect_motion` (external OpenCV code) are
modelled, per the wording of the spec, as the total area of connected
above-threshold regions of the difference image — i.e. the count of
pixels strictly above the pixel-intensity cutoff, since the connected
regions partition those pixels. -/
def motion_area (threshold : Nat) (diff : List (List Nat)) : Nat :=
  (diff.map (fun row => (row.filter (fun p => threshold < p)).length)).sum

/-- Embedding of `SurveillanceSystem._detect_motion`, parametrized by the
intensity conversion `gray` (`cv2.cvtColor` to grayscale, external). On
the first call (no stored previous frame) it seeds the buffer and reports
motion; afterwards it compares against the stored buffer, always
overwrites it with the intensities of the current frame, and reports motion
iff the motion area strictly exceeds `min_motion_area`. Returns
(verdict, new state). -/
def detect_motion {Frame : Type} (gray : Frame → List (List Nat))
    (st : MotionState) (frame : Frame) : Bool × MotionState :=
  match st.previous_frame with
  | none => (true, { st with previous_frame := some (gray frame) })
  | some prev =>
    let current_gray := gray frame
    let diff := absdiff prev current_gray
    let area := motion_area st.motion_threshold diff
    (decide (area > st.min_motion_area),
     { st with previous_frame := some current_gray })

/-- Lifecycle flags of `SurveillanceSystem` relevant to startup: the
running flag, whether the analysis worker thread was spawned, and whether
the capture loop was entered. -/
structure SysState where
  running : Bool
  worker_started : Bool
  loop_entered : Bool
deriving DecidableEq, Repr

/-- Lifecycle flags after `SurveillanceSystem.__init__`: not running, no
worker, loop not entered. -/
def initial_sys_state : SysState :=
  { running := false, worker_started := false, loop_entered := false }

/-- Embedding of `SurveillanceSystem.start`, with the camera-open outcome
(`Camera.start`, i.e. `cv2.VideoCapture(...).isOpened()`) as an oracle:
if the camera fails to open, `start` returns before setting the running
flag, spawning the worker, or entering the loop; otherwise it does all
three. -/
def system_start (camera_opens : Bool) (st : SysState) : SysState :=
  if !camera_opens then st
  else { running := true, worker_started := true, loop_entered := true }

/-! Substring lemmas for the keyword gate. -/

/-- Characterization of `containsSub` as contiguous occurrence. -/
theorem containsSub_iff {n h : List Char} :
    containsSub n h = true ↔ ∃ s t, s ++ n ++ t = h := by
  induction h with
  | nil =>
    simp only [containsSub, List.isPrefixOf_iff_prefix, List.prefix_nil]
    constructor
    · rintro rfl; exact ⟨[], [], rfl⟩
    · rintro ⟨s, t, e⟩
      rcases List.append_eq_nil.mp e with ⟨e1, e2⟩
      exact (List.append_eq_nil.mp e1).2
  | cons c rest ih =>
    simp only [containsSub, Bool.or_eq_true, List.isPrefixOf_iff_prefix, ih]
    constructor
    · rintro (⟨t, e⟩ | ⟨s, t, e⟩)
      · exact ⟨[], t, by simpa using e⟩
      · exact ⟨c :: s, t, by simp [e]⟩
    · rintro ⟨s, t, e⟩
      cases s with
      | nil => exact Or.inl ⟨t, by simpa using e⟩
      | cons a s' =>
        refine Or.inr ⟨s', t, ?_⟩
        have e' := e
        simp only [List.cons_append, List.append_assoc] at e' ⊢
        injection e' with e1 e2

/-- A prefix occurs as a substring. -/
theorem containsSub_of_pre {n h : List Char} (hp : n <+: h) :
    containsSub n h = true := by
  rcases hp with ⟨t, e⟩
  exact containsSub_iff.mpr ⟨[], t, by simpa using e⟩

/-- Occurrence is preserved by extending the haystack on the right. -/
theorem containsSub_append_right {n h : List Char} (m : List Char)
    (hc : containsSub n h = true) : containsSub n (h ++ m) = true := by
  rcases containsSub_iff.mp hc with ⟨s, t, e⟩
  exact containsSub_iff.mpr ⟨s, t ++ m, by rw [← e]; simp⟩

/-- Occurrence is preserved by extending the haystack on the left. -/
theorem containsSub_append_left {n m : List Char} (h : List Char)
    (hc : containsSub n m = true) : containsSub n (h ++ m) = true := by
  rcases containsSub_iff.mp hc with ⟨s, t, e⟩
  exact containsSub_iff.mpr ⟨h ++ s, t, by rw [← e]; simp⟩

/-- Decomposition of a prefix of an appended list. -/
theorem pre_append_cases {p h m : List Char} (hp : p <+: h ++ m) :
    p <+: h ∨ (h <+: p ∧ p.drop h.length <+: m) := by
  induction h generalizing p with
  | nil => exact Or.inr ⟨ List.nil_prefix, by simpa using hp⟩
  | cons a t ih =>
    cases p with
    | nil => exact Or.inl  List.nil_prefix
    | cons b q =>
      rw [List.cons_append] at hp
      obtain ⟨hb, hq⟩ := List.cons_prefix_cons.mp hp
      subst hb
      rcases ih hq with h1 | ⟨h2, h3⟩
      · exact Or.inl ( List.cons_prefix_cons.mpr ⟨rfl, h1⟩)
      · exact Or.inr ⟨List.cons_prefix_cons.mpr ⟨rfl, h2⟩, by simpa using h3⟩

/-- If a needle occurs in `h ++ m` but not in `m`, and no nonempty proper
tail of the needle is a prefix of `m` (so it cannot straddle the
boundary), then it occurs in `h`. -/
theorem containsSub_append_split {n m : List Char}
    (hm : containsSub n m = false)
    (hcross : ∀ k, k < n.length → 0 < k → (n.drop k).isPrefixOf m = false) :
    ∀ {h : List Char}, containsSub n (h ++ m) = true → containsSub n h = true := by
  intro h hh
  induction h with
  | nil =>
    rw [List.nil_append] at hh
    rw [hh] at hm
    cases hm
  | cons a t ih =>
    rw [List.cons_append] at hh
    simp only [containsSub, Bool.or_eq_true, List.isPrefixOf_iff_prefix] at hh ⊢
    rcases hh with hp | hrest
    · rw [← List.cons_append] at hp
      rcases pre_append_cases hp with h1 | ⟨h2, h3⟩
      · exact Or.inl h1
      · have hk : (a :: t).length ≤ n.length := h2.length_le
        rcases Nat.lt_or_ge (a :: t).length n.length with hlt | hge
        · exfalso
          have hfalse := hcross (a :: t).length hlt (Nat.succ_pos _)
          have htrue : (n.drop (a :: t).length).isPrefixOf m = true :=
            List.isPrefixOf_iff_prefix.mpr h3
          rw [hfalse] at htrue
          cases htrue
        · have heq : (a :: t).length = n.length := Nat.le_antisymm hk hge
          have : a :: t = n := h2.eq_of_length heq
          exact Or.inl (this ▸ List.prefix_refl n)
    · exact Or.inr (ih hrest)

/-! Lemmas about the motion gate and the submission step. -/

/-- Differencing a row with itself leaves no pixel above any threshold. -/
theorem row_diff_self (t : Nat) (r : List Nat) :
    ((List.zipWith (fun x y => max x y - min x y) r r).filter
      (fun p => decide (t < p))).length = 0 := by
  induction r with
  | nil => rfl
  | cons x xs ih => simp [Nat.sub_self, ih]

/-- The motion area of a frame differenced with itself is zero. -/
theorem motion_area_absdiff_self (t : Nat) (g : List (List Nat)) :
    motion_area t (absdiff g g) = 0 := by
  induction g with
  | nil => rfl
  | cons r rs ih =>
    have h1 : motion_area t (absdiff (r :: rs) (r :: rs))
        = ((List.zipWith (fun x y => max x y - min x y) r r).filter
            (fun p => decide (t < p))).length + motion_area t (absdiff rs rs) := rfl
    rw [h1, row_diff_self, ih]

/-- The new state of every `_detect_motion` call stores the current
intensities of the current frame and nothing else changes. -/
theorem detect_motion_snd {Frame : Type} (gray : Frame → List (List Nat))
    (st : MotionState) (f : Frame) :
    (detect_motion gray st f).2 = { st with previous_frame := some (gray f) } := by
  rcases hsp : st.previous_frame with _ | prev <;> simp [detect_motion, hsp]

/-- The submission decision of `_run_loop` is exactly the
motion-and-interval condition. -/
theorem run_loop_submit_fst (interval : Int) (maxsize : Nat) (st : LoopState)
    (m : Bool) (now : Int) :
    (run_loop_submit interval maxsize st m now).1
      = (m && decide (now - st.last_analysis_time ≥ interval)) := by
  unfold run_loop_submit put_nowait
  split
  · split <;> simp_all
  · simp_all

/-- A submission with the condition true and a non-full queue updates
`last_analysis_time`, appends to the queue, and bumps `frame_count`. -/
theorem run_loop_submit_success (interval : Int) (maxsize : Nat) (st : LoopState)
    (m : Bool) (now : Int)
    (hc : (m && decide (now - st.last_analysis_time ≥ interval)) = true)
    (hq : st.queue.length < maxsize) :
    run_loop_submit interval maxsize st m now
      = (true, { last_analysis_time := now, queue := st.queue ++ [now],
                 frame_count := st.frame_count + 1 }) := by
  unfold run_loop_submit put_nowait
  rw [if_pos hc, if_pos hq]

/-! Lemmas about the keyword gate. -/

/-- Occurrence in the lower-cased text survives the human-indicator
expansion. -/
theorem containsSub_expanded {n dl : List Char} (h : containsSub n dl = true) :
    containsSub n (expanded_desc dl) = true := by
  unfold expanded_desc
  split
  · exact containsSub_append_right _ h
  · exact h

/-- Occurrence of a negation phrase in the expanded text forces the gate
false. -/
theorem gate_false_of_negation {d : String} {p : String}
    (hp : p ∈ negation_phrases)
    (hc : containsSub p.data (expanded_desc (lowerChars d)) = true) :
    check_for_anomaly d = false := by
  fin_cases hp <;> simp [check_for_anomaly, hc]

/-! Claim theorems. -/

/-- C1: for every analyzed frame whose description passes the keyword
gate, the verdict is the conjunction of the two stages: zero localized
objects give `is_anomaly = false` with confidence "normal", and at least
one localized object gives `is_anomaly = true` with confidence "high" and
`persons_detected = true`. -/
theorem C1_two_stage_conjunction (d : String) (objs : List BoundingBox)
    (hk : check_for_anomaly d = true) :
    ((analyze (.ok d) (.ok [])).is_anomaly = false
      ∧ (analyze (.ok d) (.ok [])).confidence = "normal")
    ∧ (objs ≠ [] →
      (analyze (.ok d) (.ok objs)).is_anomaly = true
      ∧ (analyze (.ok d) (.ok objs)).confidence = "high"
      ∧ (analyze (.ok d) (.ok objs)).persons_detected = true) := by
  constructor
  · simp [analyze, hk]
  · intro hne
    have hlen : 0 < objs.length := List.length_pos.mpr hne
    simp [analyze, hk, hlen]

/-- Witness for C1 at a concrete description and detection outcome. -/
theorem C1_two_stage_conjunction_witness :
    check_for_anomaly ("suspicious person") = true
    ∧ ((analyze (.ok ("suspicious person")) (.ok [])).is_anomaly = false
      ∧ (analyze (.ok ("suspicious person")) (.ok [])).confidence = "normal")
    ∧ ((analyze (.ok ("suspicious person")) (.ok [⟨0, 0, 1, 1⟩])).is_anomaly = true
      ∧ (analyze (.ok ("suspicious person")) (.ok [⟨0, 0, 1, 1⟩])).confidence = "high"
      ∧ (analyze (.ok ("suspicious person")) (.ok [⟨0, 0, 1, 1⟩])).persons_detected = true) :=
  ⟨by decide,
   (C1_two_stage_conjunction ("suspicious person") [⟨0, 0, 1, 1⟩] (by decide)).1,
   (C1_two_stage_conjunction ("suspicious person") [⟨0, 0, 1, 1⟩] (by decide)).2
     (by decide)⟩

/-- C2: a description whose lower-cased text contains a negation phrase
makes the keyword gate return false regardless of alert keywords also
present, the localization call is never made, and the result is not an
anomaly for any detection outcome. -/
theorem C2_negation_forces_false (d : String)
    (hn : negation_phrases.any
      (fun p => containsSub p.data (lowerChars d)) = true) :
    check_for_anomaly d = false
    ∧ analyze_calls_detect (.ok d) = false
    ∧ ∀ detect_res, (analyze (.ok d) detect_res).is_anomaly = false := by
  obtain ⟨p, hp, hc⟩ := List.any_eq_true.mp hn
  have hc' : containsSub p.data (lowerChars d) = true := by simpa using hc
  have hgate := gate_false_of_negation hp (containsSub_expanded hc')
  refine ⟨hgate, ?_, ?_⟩
  · simpa [analyze_calls_detect] using hgate
  · intro dr
    simp [analyze, hgate]

/-- Witness for C2 at the example description given in the spec. -/
theorem C2_negation_forces_false_witness :
    negation_phrases.any (fun p => containsSub p.data
      (lowerChars ("no anomaly detected, suspicious person nearby"))) = true
    ∧ check_for_anomaly ("no anomaly detected, suspicious person nearby") = false
    ∧ analyze_calls_detect
        (.ok ("no anomaly detected, suspicious person nearby")) = false
    ∧ (analyze (.ok ("no anomaly detected, suspicious person nearby"))
        (.ok [⟨0, 0, 1, 1⟩])).is_anomaly = false :=
  ⟨by decide,
   (C2_negation_forces_false ("no anomaly detected, suspicious person nearby")
     (by decide)).1,
   (C2_negation_forces_false ("no anomaly detected, suspicious person nearby")
     (by decide)).2.1,
   (C2_negation_forces_false ("no anomaly detected, suspicious person nearby")
     (by decide)).2.2 (.ok [⟨0, 0, 1, 1⟩])⟩

/-- C5: if the description call of the classifier fails, `analyze` returns the
error result (confidence "error", not an anomaly, description "Error: "
followed by the cause), never calls the localization endpoint, and the
failure does not propagate (the error branch yields a value for every
detection oracle). -/
theorem C5_describe_failure (e : String)
    (detect_res : Except String (List BoundingBox)) :
    analyze (.error e) detect_res = error_result e
    ∧ (analyze (.error e) detect_res).confidence = "error"
    ∧ (analyze (.error e) detect_res).is_anomaly = false
    ∧ (analyze (.error e) detect_res).description = "Error: " ++ e
    ∧ analyze_calls_detect (.error e) = false :=
  ⟨rfl, rfl, rfl, rfl, rfl⟩

/-- C10: if the frame source fails to open, `start` leaves the system
state unchanged; from the initial state the running flag stays false, no
worker is spawned, and the capture loop is never entered. -/
theorem C10_startup_failure_fatal (st : SysState) :
    system_start false st = st
    ∧ (system_start false initial_sys_state).running = false
    ∧ (system_start false initial_sys_state).worker_started = false
    ∧ (system_start false initial_sys_state).loop_entered = false :=
  ⟨rfl, rfl, rfl, rfl⟩

/-- A loop state with a full analysis queue and last accepted time 0. -/
def full_queue_state : LoopState :=
  { last_analysis_time := 0, queue := List.replicate 10 0, frame_count := 0 }

/-- C3 counterexample: with motion present and the queue full, the
submission decision at time 5 is true yet `last_analysis_time` stays 0
(not updated to now), and the decision is true again at time 6 — twice
within one 2-second interval on a monotonically increasing clock. -/
theorem C3_counterexample :
    (run_loop_submit FRAME_INTERVAL QUEUE_MAXSIZE full_queue_state true 5).1 = true
    ∧ (run_loop_submit FRAME_INTERVAL QUEUE_MAXSIZE
        full_queue_state true 5).2.last_analysis_time = 0
    ∧ (run_loop_submit FRAME_INTERVAL QUEUE_MAXSIZE
        (run_loop_submit FRAME_INTERVAL QUEUE_MAXSIZE
          full_queue_state true 5).2 true 6).1 = true := by
  decide

/-- C3 amended: the submission decision is true iff motion is present and
`now - last_analysis_time ≥ interval`; on a true decision whose enqueue
succeeds (queue below capacity) `last_analysis_time` is updated to now,
and then no true decision recurs within one interval; and the decision is
always true when motion is present and more than the interval has elapsed
since the last accepted submission. (When the queue is full, a true
decision leaves `last_analysis_time` unchanged.) -/
theorem C3_amended (interval : Int) (maxsize : Nat) (st : LoopState)
    (m m2 : Bool) (now now2 : Int) :
    ((run_loop_submit interval maxsize st m now).1
      = (m && decide (now - st.last_analysis_time ≥ interval)))
    ∧ ((run_loop_submit interval maxsize st m now).1 = true →
        st.queue.length < maxsize →
        (run_loop_submit interval maxsize st m now).2.last_analysis_time = now)
    ∧ ((run_loop_submit interval maxsize st m now).1 = true →
        st.queue.length < maxsize →
        now2 - now < interval →
        (run_loop_submit interval maxsize
          (run_loop_submit interval maxsize st m now).2 m2 now2).1 = false)
    ∧ (m = true → now - st.last_analysis_time > interval →
        (run_loop_submit interval maxsize st m now).1 = true) := by
  refine ⟨run_loop_submit_fst interval maxsize st m now, ?_, ?_, ?_⟩
  · intro hdec hq
    have hc : (m && decide (now - st.last_analysis_time ≥ interval)) = true := by
      rw [← run_loop_submit_fst interval maxsize st m now]
      exact hdec
    rw [run_loop_submit_success interval maxsize st m now hc hq]
  · intro hdec hq hlt
    have hc : (m && decide (now - st.last_analysis_time ≥ interval)) = true := by
      rw [← run_loop_submit_fst interval maxsize st m now]
      exact hdec
    rw [run_loop_submit_success interval maxsize st m now hc hq,
        run_loop_submit_fst]
    simp [not_le.mpr hlt]
  · intro hm hgt
    rw [run_loop_submit_fst, hm]
    simp [le_of_lt hgt]

/-- Witness for C3 amended at concrete times with a non-full queue. -/
theorem C3_amended_witness :
    ((run_loop_submit 2 10 ⟨0, [], 0⟩ true 5).1
      = (true && decide ((5 : Int) - (⟨0, [], 0⟩ : LoopState).last_analysis_time ≥ 2)))
    ∧ (run_loop_submit 2 10 ⟨0, [], 0⟩ true 5).2.last_analysis_time = 5
    ∧ (run_loop_submit 2 10 (run_loop_submit 2 10 ⟨0, [], 0⟩ true 5).2 true 6).1 = false
    ∧ (run_loop_submit 2 10 ⟨0, [], 0⟩ true 5).1 = true := by
  have h := C3_amended 2 10 ⟨0, [], 0⟩ true true 5 6
  exact ⟨h.1, h.2.1 (by decide) (by decide),
         h.2.2.1 (by decide) (by decide) (by decide),
         h.2.2.2 rfl (by decide)⟩

/-- Folding a task list into the analysis queue through `put_nowait`,
starting from an empty queue (a worker that never drains). -/
def submit_all (tasks : List Int) : List Int :=
  tasks.foldl (fun q t => (put_nowait QUEUE_MAXSIZE q t).2) []

/-- C4: the bounded queue never exceeds its capacity of 10; an enqueue on
a full queue fails and leaves the contents unchanged; and submitting 11
tasks to an undrained queue leaves exactly 10 queued with the 11th
enqueue failing. -/
theorem C4_bounded_queue {A : Type} (q qf : List A) (x y : A)
    (hle : q.length ≤ QUEUE_MAXSIZE) (hfull : qf.length = QUEUE_MAXSIZE) :
    ((put_nowait QUEUE_MAXSIZE q x).2.length ≤ QUEUE_MAXSIZE)
    ∧ put_nowait QUEUE_MAXSIZE qf y = (false, qf)
    ∧ (submit_all (List.range 11 |>.map Int.ofNat)).length = 10
    ∧ (put_nowait QUEUE_MAXSIZE
        (submit_all (List.range 10 |>.map Int.ofNat)) 10).1 = false := by
  refine ⟨?_, ?_, by decide, by decide⟩
  · unfold put_nowait
    split
    · next hlt => simpa using hlt
    · simpa using hle
  · have hnot : ¬ qf.length < QUEUE_MAXSIZE := by omega
    simp [put_nowait, hnot]

/-- Witness for C4 at a concrete queue of naturals. -/
theorem C4_bounded_queue_witness :
    (([] : List Nat).length ≤ QUEUE_MAXSIZE
      ∧ (List.replicate 10 (0 : Nat)).length = QUEUE_MAXSIZE)
    ∧ ((put_nowait QUEUE_MAXSIZE ([] : List Nat) 7).2.length ≤ QUEUE_MAXSIZE)
    ∧ put_nowait QUEUE_MAXSIZE (List.replicate 10 (0 : Nat)) 7
        = (false, List.replicate 10 0)
    ∧ (submit_all (List.range 11 |>.map Int.ofNat)).length = 10
    ∧ (put_nowait QUEUE_MAXSIZE
        (submit_all (List.range 10 |>.map Int.ofNat)) 10).1 = false :=
  ⟨⟨by decide, by decide⟩,
   (C4_bounded_queue ([] : List Nat) (List.replicate 10 0) 7 7
     (by decide) (by decide)).1,
   (C4_bounded_queue ([] : List Nat) (List.replicate 10 0) 7 7
     (by decide) (by decide)).2.1,
   (C4_bounded_queue ([] : List Nat) (List.replicate 10 0) 7 7
     (by decide) (by decide)).2.2.1,
   (C4_bounded_queue ([] : List Nat) (List.replicate 10 0) 7 7
     (by decide) (by decide)).2.2.2⟩

/-- C6: the human-indicator expansion matches by substring, not by word.
Any description whose lower-cased text contains a listed human word as a
substring (e.g. "man" inside "many") and does not contain "person" gets
the token " person" appended for matching; since "person" is a configured
alert keyword, the keyword gate returns true whenever no negation phrase
occurs in the text. -/
theorem C6_human_substring_gate (d : String)
    (hh : human_words.any
      (fun w => containsSub w.data (lowerChars d)) = true)
    (hp : containsSub ("person").data (lowerChars d) = false)
    (hn : negation_phrases.all
      (fun p => !(containsSub p.data (lowerChars d))) = true) :
    expanded_desc (lowerChars d) = lowerChars d ++ (" person").data
    ∧ check_for_anomaly d = true := by
  have hexp : expanded_desc (lowerChars d) = lowerChars d ++ (" person").data := by
    simp [expanded_desc, hh, hp]
  refine ⟨hexp, ?_⟩
  have hn' : ∀ p ∈ negation_phrases,
      containsSub p.data (lowerChars d) = false := by
    intro p hpmem
    simpa using List.all_eq_true.mp hn p hpmem
  have hnp : ∀ p ∈ negation_phrases,
      containsSub p.data (lowerChars d ++ (" person").data) = false := by
    intro p hpmem
    have hdl := hn' p hpmem
    fin_cases hpmem <;>
    · refine Bool.eq_false_iff.mpr (fun hval => ?_)
      have hback := containsSub_append_split (by decide) (by decide) hval
      rw [hback] at hdl
      simp at hdl
  have h1 := hnp ("no anomaly") (by simp [negation_phrases])
  have h2 := hnp ("nothing unusual") (by simp [negation_phrases])
  have h3 := hnp ("appears normal") (by simp [negation_phrases])
  have h4 := hnp ("everything looks normal") (by simp [negation_phrases])
  have hkw : alert_keywords.any
      (fun kw => containsSub kw (lowerChars d ++ (" person").data)) = true := by
    refine List.any_eq_true.mpr ⟨lowerChars ("person"), by decide, ?_⟩
    simpa using containsSub_append_left (n := (lowerChars ("person")))
      (lowerChars d) (by decide)
  simp [check_for_anomaly, hexp, h1, h2, h3, h4, hkw]

/-- Witness for C6 at a description that mentions no human and no alert
condition, yet contains "man" inside "many". -/
theorem C6_human_substring_gate_witness :
    human_words.any (fun w => containsSub w.data
      (lowerChars ("many cars drove by"))) = true
    ∧ containsSub ("person").data (lowerChars ("many cars drove by")) = false
    ∧ negation_phrases.all (fun p => !(containsSub p.data
        (lowerChars ("many cars drove by")))) = true
    ∧ expanded_desc (lowerChars ("many cars drove by"))
        = lowerChars ("many cars drove by") ++ (" person").data
    ∧ check_for_anomaly ("many cars drove by") = true :=
  ⟨by decide, by decide, by decide,
   (C6_human_substring_gate ("many cars drove by")
     (by decide) (by decide) (by decide)).1,
   (C6_human_substring_gate ("many cars drove by")
     (by decide) (by decide) (by decide)).2⟩

/-- C7: on the very first motion-gate invocation (no stored previous
frame), the verdict is true for every frame, the buffer is seeded with
the intensity representation of the frame, and the thresholds are untouched. -/
theorem C7_first_call_always_motion {Frame : Type}
    (gray : Frame → List (List Nat)) (st : MotionState) (f : Frame)
    (h : st.previous_frame = none) :
    (detect_motion gray st f).1 = true
    ∧ (detect_motion gray st f).2.previous_frame = some (gray f)
    ∧ (detect_motion gray st f).2.motion_threshold = st.motion_threshold
    ∧ (detect_motion gray st f).2.min_motion_area = st.min_motion_area := by
  unfold detect_motion
  rw [h]
  exact ⟨rfl, rfl, rfl, rfl⟩

/-- Witness for C7 from the initial motion state on a concrete frame. -/
theorem C7_first_call_always_motion_witness :
    initial_motion_state.previous_frame = none
    ∧ (detect_motion id initial_motion_state [[7]]).1 = true
    ∧ (detect_motion id initial_motion_state [[7]]).2.previous_frame = some [[7]]
    ∧ (detect_motion id initial_motion_state [[7]]).2.motion_threshold
        = initial_motion_state.motion_threshold
    ∧ (detect_motion id initial_motion_state [[7]]).2.min_motion_area
        = initial_motion_state.min_motion_area :=
  ⟨rfl,
   (C7_first_call_always_motion id initial_motion_state [[7]] rfl).1,
   (C7_first_call_always_motion id initial_motion_state [[7]] rfl).2.1,
   (C7_first_call_always_motion id initial_motion_state [[7]] rfl).2.2.1,
   (C7_first_call_always_motion id initial_motion_state [[7]] rfl).2.2.2⟩

/-- C8: after the first call, the motion verdict is true iff the total
above-threshold area of the frame difference strictly exceeds the
minimum-area threshold; in particular, on two consecutive calls with
identical frame content the second call reports no motion. -/
theorem C8_motion_iff_area {Frame : Type}
    (gray : Frame → List (List Nat)) (st : MotionState) (f f2 : Frame)
    (g : List (List Nat)) (h : st.previous_frame = some g) :
    ((detect_motion gray st f).1
      = decide (motion_area st.motion_threshold (absdiff g (gray f))
          > st.min_motion_area))
    ∧ (detect_motion gray (detect_motion gray st f2).2 f2).1 = false := by
  constructor
  · unfold detect_motion
    rw [h]
  · rw [detect_motion_snd gray st f2]
    show decide (motion_area st.motion_threshold
      (absdiff (gray f2) (gray f2)) > st.min_motion_area) = false
    rw [motion_area_absdiff_self]
    simp

/-- Witness for C8 at a concrete stored frame and current frames. -/
theorem C8_motion_iff_area_witness :
    (⟨some [[30]], 25, 500⟩ : MotionState).previous_frame = some [[30]]
    ∧ ((detect_motion id (⟨some [[30]], 25, 500⟩ : MotionState) [[0]]).1
      = decide (motion_area
          (⟨some [[30]], 25, 500⟩ : MotionState).motion_threshold
          (absdiff [[30]] [[0]])
          > (⟨some [[30]], 25, 500⟩ : MotionState).min_motion_area))
    ∧ (detect_motion id
        (detect_motion id (⟨some [[30]], 25, 500⟩ : MotionState) [[5]]).2
        [[5]]).1 = false :=
  ⟨rfl,
   (C8_motion_iff_area id (⟨some [[30]], 25, 500⟩ : MotionState)
     [[0]] [[5]] [[30]] rfl).1,
   (C8_motion_iff_area id (⟨some [[30]], 25, 500⟩ : MotionState)
     [[0]] [[5]] [[30]] rfl).2⟩

/-- C9: every motion-gate invocation overwrites the stored previous-frame
buffer with the intensity representation of the current frame, regardless of
the verdict, and leaves both thresholds unchanged. -/
theorem C9_always_overwrites_buffer {Frame : Type}
    (gray : Frame → List (List Nat)) (st : MotionState) (f : Frame) :
    (detect_motion gray st f).2.previous_frame = some (gray f)
    ∧ (detect_motion gray st f).2.motion_threshold = st.motion_threshold
    ∧ (detect_motion gray st f).2.min_motion_area = st.min_motion_area := by
  rw [detect_motion_snd]
  exact ⟨rfl, rfl, rfl⟩
